import Mathlib

/-!
Verification of the HouseHunter real-time chat subsystem.

This file gives a shallow embedding of the chat data model and the
operations of `api/services/chat_service.py` and the websocket handler of
`api/routes/chat_routes.py`, and proves the specified properties about
them.

Modelling conventions:
* uuid identifiers are modelled as `Nat`, drawn from a fresh-id counter
  `next_id` in the store state (uuid4 generation yields fresh values).
* Wall-clock time is a monotone counter `clock` in the store state; every
  call of `datetime.now` / the database's `func.now()` reads the counter
  and advances it, so successive clock reads are strictly increasing.
* A SQLAlchemy `AsyncSession` together with the database is modelled as a
  single explicit state `DB`; a service call returns the updated state,
  and raising an exception (with rollback) leaves the caller's state
  untouched.
* `scalar_one_or_none` on a SELECT result is modelled on the list of rows
  matching the WHERE clause.
-/

/-- A row of the `users` table (only the column the chat code reads). -/
structure User where
  id : Nat
deriving DecidableEq, Repr

/-- A row of the `properties` table: its id and its `lister_id` column,
which is nullable. -/
structure Property where
  id : Nat
  lister_id : Option Nat
deriving DecidableEq, Repr

/-- A row of the `chats` table (`models/chat.py`, class `Chat`). -/
structure Chat where
  id : Nat
  property_id : Option Nat
  initiator_id : Nat
  property_user_id : Nat
  created_at : Nat
  updated_at : Nat
deriving DecidableEq, Repr

/-- A row of the `chat_messages` table (`models/chat.py`, class
`ChatMessage`). -/
structure ChatMessage where
  id : Nat
  chat_id : Nat
  sender_id : Nat
  content : String
  is_read : Bool
  created_at : Nat
deriving DecidableEq, Repr

/-- The database state seen by the chat service, plus the fresh-id and
clock counters of the modelling conventions. -/
structure DB where
  users : List User
  properties : List Property
  chats : List Chat
  messages : List ChatMessage
  next_id : Nat
  clock : Nat
deriving DecidableEq, Repr

/-- The exception taxonomy of `services/exceptions.py` as used by the chat
code. -/
inductive ChatError where
  | propertyNotFound
  | userNotFound
  | invalidRequest
  | chatNotFound
  | unauthorized
  | multipleResults
deriving DecidableEq, Repr

/-- Read the current wall-clock time and advance it (one evaluation of
`datetime.now(timezone.utc)` or of the database's `func.now()`). -/
def now (db : DB) : Nat × DB :=
  (db.clock, { db with clock := db.clock + 1 })

/-- SQLAlchemy's `scalar_one_or_none` applied to the rows matching a
SELECT: none for an empty result, the row for a singleton, and the
`MultipleResultsFound` error otherwise. -/
def scalar_one_or_none {α : Type} : List α → Except ChatError (Option α)
  | [] => .ok none
  | [a] => .ok (some a)
  | _ :: _ :: _ => .error .multipleResults

/-- The WHERE clause of the existing-chat lookup in
`ChatService.find_or_create_chat`: same property, and the two participants
in either slot order. -/
def listingChatMatch (property_id : Nat) (initiator_id lister_id : Nat) (c : Chat) : Bool :=
  c.property_id == some property_id &&
    ((c.initiator_id == initiator_id && c.property_user_id == lister_id) ||
     (c.initiator_id == lister_id && c.property_user_id == initiator_id))

/-- The WHERE clause of the existing-chat lookup in
`ChatService.find_or_create_direct_chat`: `property_id IS NULL`, and the
two participants in either slot order. -/
def directChatMatch (initiator_id recipient_id : Nat) (c : Chat) : Bool :=
  c.property_id == none &&
    ((c.initiator_id == initiator_id && c.property_user_id == recipient_id) ||
     (c.initiator_id == recipient_id && c.property_user_id == initiator_id))

/-- Model of `ChatService.find_or_create_chat`: find the listing, reject a missing
listing, a listing without lister, and self-chat; return the existing chat
for (listing, unordered participant pair) when there is one, else insert a
fresh chat row. -/
def find_or_create_chat (db : DB) (property_id : Nat) (initiator_user : User) :
    Except ChatError (Chat × DB) := do
  let prop? ← scalar_one_or_none (db.properties.filter (fun p => p.id == property_id))
  let some prop := prop? | throw .propertyNotFound
  let some property_user_id := prop.lister_id | throw .invalidRequest
  if initiator_user.id == property_user_id then
    throw .invalidRequest
  let existing? ← scalar_one_or_none
    (db.chats.filter (listingChatMatch property_id initiator_user.id property_user_id))
  match existing? with
  | some chat => .ok (chat, db)
  | none =>
    let (t, db) := now db
    let new_chat : Chat :=
      { id := db.next_id, property_id := some property_id,
        initiator_id := initiator_user.id, property_user_id := property_user_id,
        created_at := t, updated_at := t }
    .ok (new_chat, { db with chats := db.chats ++ [new_chat], next_id := db.next_id + 1 })

/-- Model of `ChatService.find_or_create_direct_chat`: find the recipient user,
reject an unknown recipient and self-chat; return the existing direct chat
(`property_id IS NULL`) for the unordered pair when there is one, else
insert a fresh direct chat row. -/
def find_or_create_direct_chat (db : DB) (initiator_user : User) (recipient_user_id : Nat) :
    Except ChatError (Chat × DB) := do
  let some recipient := db.users.find? (fun u => u.id == recipient_user_id)
    | throw .userNotFound
  if initiator_user.id == recipient.id then
    throw .invalidRequest
  let existing? ← scalar_one_or_none
    (db.chats.filter (directChatMatch initiator_user.id recipient.id))
  match existing? with
  | some chat => .ok (chat, db)
  | none =>
    let (t, db) := now db
    let new_chat : Chat :=
      { id := db.next_id, property_id := none,
        initiator_id := initiator_user.id, property_user_id := recipient.id,
        created_at := t, updated_at := t }
    .ok (new_chat, { db with chats := db.chats ++ [new_chat], next_id := db.next_id + 1 })

/-- Model of `ChatService.get_chat_by_id`: fetch the chat by id, raise
`ChatNotFoundException` when absent, raise the authorization error when
the requesting user is neither participant; a pure SELECT, the state is
returned unchanged. -/
def get_chat_by_id (db : DB) (chat_id : Nat) (requesting_user : User) :
    Except ChatError (Chat × DB) := do
  let chat? ← scalar_one_or_none (db.chats.filter (fun c => c.id == chat_id))
  let some chat := chat? | throw .chatNotFound
  if requesting_user.id == chat.initiator_id || requesting_user.id == chat.property_user_id then
    .ok (chat, db)
  else
    throw .unauthorized

/-- Total pages as computed throughout `chat_service.py`:
`ceil(total_items / per_page) if per_page > 0 and total_items > 0 else 0`. -/
def total_pages_of (total_items per_page : Nat) : Nat :=
  if per_page > 0 && total_items > 0 then (total_items + per_page - 1) / per_page else 0

/-- The ORDER BY key of the message-history query: ascending
`ChatMessage.created_at`. -/
def createdLe (a b : ChatMessage) : Bool :=
  a.created_at ≤ b.created_at

/-- The messages of one chat in the order the history query returns them:
filtered by `chat_id`, sorted ascending by `created_at` (stable in stored
order for equal timestamps). -/
def sortedMessages (db : DB) (chat_id : Nat) : List ChatMessage :=
  (db.messages.filter (fun m => m.chat_id == chat_id)).mergeSort createdLe

/-- Model of `ChatService.get_chat_messages`: verify participation via
`get_chat_by_id`, then return page `page` (1-based, `per_page` rows,
offset `(page - 1) * per_page`) of the chat's messages ordered oldest
first, with the total count and page count; pure SELECTs, the state is
returned unchanged. -/
def get_chat_messages (db : DB) (chat_id : Nat) (requesting_user : User)
    (page : Nat) (per_page : Nat) :
    Except ChatError (List ChatMessage × Nat × Nat × DB) := do
  let (_chat, db) ← get_chat_by_id db chat_id requesting_user
  let offset := (page - 1) * per_page
  let total_items := (db.messages.filter (fun m => m.chat_id == chat_id)).length
  let items := ((sortedMessages db chat_id).drop offset).take per_page
  .ok (items, total_items, total_pages_of total_items per_page, db)

/-- Model of `ChatService.add_message_to_chat`: verify participation via
`get_chat_by_id`; set the chat's `updated_at` to `datetime.now()` (a clock
read made before the flush); on flush, insert the message row with a fresh
id, `is_read = False` and a `created_at` assigned by the database's
`func.now()` server default (a later clock read); both writes belong to
the same transaction, so the returned state holds them together. -/
def add_message_to_chat (db : DB) (chat_id : Nat) (sender : User) (content : String) :
    Except ChatError (ChatMessage × DB) := do
  let (chat, db) ← get_chat_by_id db chat_id sender
  let (t_upd, db) := now db
  let db := { db with
    chats := db.chats.map (fun c =>
      if c.id == chat.id then { c with updated_at := t_upd } else c) }
  let (t_cre, db) := now db
  let new_message : ChatMessage :=
    { id := db.next_id, chat_id := chat.id, sender_id := sender.id,
      content := content, is_read := false, created_at := t_cre }
  .ok (new_message,
    { db with messages := db.messages ++ [new_message], next_id := db.next_id + 1 })

/-- The WHERE clause of the bulk UPDATE in
`ChatService.mark_messages_as_read`: same chat, not sent by the caller,
and still unread. -/
def markReadPred (chat_id caller_id : Nat) (m : ChatMessage) : Bool :=
  m.chat_id == chat_id && m.sender_id != caller_id && m.is_read == false

/-- The SET clause of that bulk UPDATE applied to one row: flip `is_read`
to true exactly on the rows the WHERE clause selects. -/
def markReadApply (chat_id caller_id : Nat) (m : ChatMessage) : ChatMessage :=
  if markReadPred chat_id caller_id m then { m with is_read := true } else m

/-- Model of `ChatService.mark_messages_as_read`: verify participation via
`get_chat_by_id`; run the bulk UPDATE flipping `is_read` on the selected
rows and take its row count; when the count is positive also set the
chat's `updated_at` to `datetime.now()`; return the count. -/
def mark_messages_as_read (db : DB) (chat_id : Nat) (user : User) :
    Except ChatError (Nat × DB) := do
  let (_chat, db) ← get_chat_by_id db chat_id user
  let updated_count := (db.messages.filter (markReadPred chat_id user.id)).length
  let db := { db with messages := db.messages.map (markReadApply chat_id user.id) }
  if updated_count > 0 then
    let (t, db) := now db
    let db := { db with
      chats := db.chats.map (fun c =>
        if c.id == chat_id then { c with updated_at := t } else c) }
    .ok (updated_count, db)
  else
    .ok (updated_count, db)

/-- An inbound websocket frame as the receiver duty of
`chat_routes.chat_ws` sees it after `websocket.receive()`: either the raw
payload fails `json.loads`, or it parses but is not an object carrying a
string `content` field (Pydantic validation fails on shape), or it carries
a `content` string (whose length Pydantic still has to check). -/
inductive Frame where
  | invalidJson
  | badShape
  | contentFrame (content : String)
deriving DecidableEq, Repr

/-- Parsing plus `CreateChatMessageRequest.model_validate` of one frame:
succeeds exactly on a `content` string of length 1 to 2000
(`models/chat.py`: `Field(..., min_length=1, max_length=2000)`). -/
def validate_create_request : Frame → Option String
  | .invalidJson => none
  | .badShape => none
  | .contentFrame s => if 1 ≤ s.length ∧ s.length ≤ 2000 then some s else none

/-- The observable actions of the receiver duty, in the order it performs
them: committing the store transaction that persists a message, and
publishing a payload for a message to a bus topic. -/
inductive Event where
  | storeCommit (message_id : Nat)
  | publish (topic : String) (message_id : Nat)
deriving DecidableEq, Repr

/-- The result of handling one inbound frame: the store state afterwards,
the emitted actions in order, and whether handling the frame ends the
receive loop (it never does: both `json.JSONDecodeError` and the blanket
`except Exception` are caught, logged, and the loop continues). -/
structure FrameResult where
  db : DB
  events : List Event
  closesSession : Bool
deriving DecidableEq, Repr

/-- One iteration of `websocket_receiver_task` in `chat_routes.chat_ws`:
parse and validate the frame; on failure log and continue; on success call
`add_message_to_chat` and commit, then publish the serialized message to
the topic `"chat:" + chat_id`; a service error is caught by the blanket
handler, logged, and the loop continues. -/
def process_frame (db : DB) (chat_id : Nat) (user : User) (f : Frame) : FrameResult :=
  match validate_create_request f with
  | none => { db := db, events := [], closesSession := false }
  | some content =>
    match add_message_to_chat db chat_id user content with
    | .error _ => { db := db, events := [], closesSession := false }
    | .ok (msg, db') =>
      { db := db',
        events := [.storeCommit msg.id, .publish ("chat:" ++ toString chat_id) msg.id],
        closesSession := false }

/-- The receive loop of the inbound duty over a finite sequence of frames,
accumulating the store state and the emitted actions in order. -/
def websocket_receiver_loop (db : DB) (chat_id : Nat) (user : User) :
    List Frame → DB × List Event
  | [] => (db, [])
  | f :: fs =>
    let r := process_frame db chat_id user f
    let rest := websocket_receiver_loop r.db chat_id user fs
    (rest.1, r.events ++ rest.2)

/-- Outcome of a websocket connection attempt in `chat_routes.chat_ws`
before any frame is exchanged: rejected while unauthenticated, rejected
because `get_chat_by_id` raised (the exception propagates before
`websocket.accept()` runs), or accepted. -/
inductive WsConnectOutcome where
  | rejectedUnauthenticated
  | rejectedError (e : ChatError)
  | accepted (chat : Chat)
deriving DecidableEq, Repr

/-- The authentication and authorization phase of `chat_routes.chat_ws`:
require an authenticated current user, then resolve the chat with
`get_chat_by_id`; only when that returns does `websocket.accept()` run. -/
def chat_ws_connect (db : DB) (chat_id : Nat) (current_user : Option User) :
    WsConnectOutcome :=
  match current_user with
  | none => .rejectedUnauthenticated
  | some u =>
    match get_chat_by_id db chat_id u with
    | .error e => .rejectedError e
    | .ok (chat, _) => .accepted chat

/-- Whether the protocol handshake was completed (`websocket.accept()`
reached) for a connection outcome. -/
def handshakeAccepted : WsConnectOutcome → Bool
  | .accepted _ => true
  | _ => false

/-- Message ids committed so far, threaded left to right over an action
trace, starting from `committed`. -/
def commitsAfter (committed : List Nat) : List Event → List Nat
  | [] => committed
  | .storeCommit m :: rest => commitsAfter (m :: committed) rest
  | .publish _ _ :: rest => commitsAfter committed rest

/-- Every publish in the trace is of a message already committed: either
earlier in the trace or in the initial `committed` set. -/
def publishPreceded (committed : List Nat) : List Event → Prop
  | [] => True
  | .storeCommit m :: rest => publishPreceded (m :: committed) rest
  | .publish _ m :: rest => m ∈ committed ∧ publishPreceded committed rest

/-- When the chat-id SELECT matches exactly the row `c` and the requesting
user is one of its participants, `get_chat_by_id` returns `c` with the
state untouched. -/
theorem get_chat_by_id_of_filter {db : DB} {chat_id : Nat} {u : User} {c : Chat}
    (hf : db.chats.filter (fun c => c.id == chat_id) = [c])
    (hp : u.id = c.initiator_id ∨ u.id = c.property_user_id) :
    get_chat_by_id db chat_id u = .ok (c, db) := by
  simp [get_chat_by_id, hf, scalar_one_or_none, Bind.bind, Except.bind]
  rcases hp with h | h <;> simp [h]

/-- Inversion for a successful `get_chat_by_id`: the state is unchanged,
the returned chat is a stored row with the requested id, and the
requesting user is one of its participants. -/
theorem get_chat_by_id_ok {db db' : DB} {chat_id : Nat} {u : User} {c : Chat}
    (h : get_chat_by_id db chat_id u = .ok (c, db')) :
    db' = db ∧ c ∈ db.chats ∧ c.id = chat_id ∧
      (u.id = c.initiator_id ∨ u.id = c.property_user_id) := by
  unfold get_chat_by_id at h
  cases hf : db.chats.filter (fun c => c.id == chat_id) with
  | nil => simp [hf, scalar_one_or_none, Bind.bind, Except.bind] at h
  | cons a t =>
    cases t with
    | cons b t' => simp [hf, scalar_one_or_none, Bind.bind, Except.bind] at h
    | nil =>
      simp [hf, scalar_one_or_none, Bind.bind, Except.bind] at h
      by_cases hauth : u.id = a.initiator_id ∨ u.id = a.property_user_id
      · have hmem : a ∈ db.chats.filter (fun x => x.id == chat_id) := by
          rw [hf]; exact List.mem_singleton.mpr rfl
        rw [List.mem_filter] at hmem
        simp [hauth] at h
        rcases h with ⟨rfl, rfl⟩
        exact ⟨rfl, hmem.1, by simpa using hmem.2, hauth⟩
      · simp [hauth] at h

/-- When no stored chat has the requested id, `get_chat_by_id` raises the
not-found error. -/
theorem get_chat_by_id_error_not_found {db : DB} {chat_id : Nat} {u : User}
    (hf : db.chats.filter (fun c => c.id == chat_id) = []) :
    get_chat_by_id db chat_id u = .error .chatNotFound := by
  simp [get_chat_by_id, hf, scalar_one_or_none, Bind.bind, Except.bind]
  rfl

/-- When the chat exists but the requesting user is neither participant,
`get_chat_by_id` raises the authorization error. -/
theorem get_chat_by_id_error_unauthorized {db : DB} {chat_id : Nat} {u : User} {c : Chat}
    (hf : db.chats.filter (fun c => c.id == chat_id) = [c])
    (h1 : u.id ≠ c.initiator_id) (h2 : u.id ≠ c.property_user_id) :
    get_chat_by_id db chat_id u = .error .unauthorized := by
  simp [get_chat_by_id, hf, scalar_one_or_none, Bind.bind, Except.bind, h1, h2]
  rfl

/-- The message row a successful `add_message_to_chat` creates when the
store state is `db` and the chat row is `c`: fresh id, `is_read = False`,
creation timestamp one clock step after the chat's new `updated_at`. -/
def msgAfterAdd (db : DB) (c : Chat) (u : User) (s : String) : ChatMessage :=
  ⟨db.next_id, c.id, u.id, s, false, db.clock + 1⟩

/-- The store state after a successful `add_message_to_chat`: the chat row
carries `updated_at = db.clock`, the message row is appended, and both
counters advanced. -/
def dbAfterAdd (db : DB) (c : Chat) (u : User) (s : String) : DB :=
  { users := db.users, properties := db.properties,
    chats := db.chats.map (fun x =>
      if x.id == c.id then { x with updated_at := db.clock } else x),
    messages := db.messages ++ [msgAfterAdd db c u s],
    next_id := db.next_id + 1, clock := db.clock + 2 }

/-- Forward computation of a successful `add_message_to_chat`: with the
chat row `c` present and the sender a participant, the call returns the
fresh message (created one clock step after the chat's new `updated_at`)
and the state holding both writes. -/
theorem add_message_success {db : DB} {chat_id : Nat} {u : User} {c : Chat} (s : String)
    (hf : db.chats.filter (fun c => c.id == chat_id) = [c])
    (hp : u.id = c.initiator_id ∨ u.id = c.property_user_id) :
    add_message_to_chat db chat_id u s = .ok (msgAfterAdd db c u s, dbAfterAdd db c u s) := by
  simp [add_message_to_chat, get_chat_by_id_of_filter hf hp, now, Bind.bind, Except.bind,
    msgAfterAdd, dbAfterAdd]

/-- Inversion for a successful `add_message_to_chat`: exact description of
the returned message and of every component of the resulting state. -/
theorem add_message_ok {db db' : DB} {chat_id : Nat} {u : User} {s : String} {msg : ChatMessage}
    (h : add_message_to_chat db chat_id u s = .ok (msg, db')) :
    msg.id = db.next_id ∧ msg.chat_id = chat_id ∧ msg.sender_id = u.id ∧
      msg.content = s ∧ msg.is_read = false ∧ msg.created_at = db.clock + 1 ∧
      db'.users = db.users ∧ db'.properties = db.properties ∧
      db'.messages = db.messages ++ [msg] ∧
      db'.chats = db.chats.map (fun x =>
        if x.id == chat_id then { x with updated_at := db.clock } else x) ∧
      db'.next_id = db.next_id + 1 ∧ db'.clock = db.clock + 2 ∧
      (∃ c, c ∈ db.chats ∧ c.id = chat_id ∧
        (u.id = c.initiator_id ∨ u.id = c.property_user_id)) := by
  unfold add_message_to_chat at h
  cases hg : get_chat_by_id db chat_id u with
  | error e => simp [hg, Bind.bind, Except.bind] at h
  | ok res =>
    obtain ⟨c, db1⟩ := res
    obtain ⟨rfl, hmem, hid, hpart⟩ := get_chat_by_id_ok hg
    simp [hg, now, Bind.bind, Except.bind] at h
    obtain ⟨rfl, rfl⟩ := h
    subst hid
    refine ⟨rfl, rfl, rfl, rfl, rfl, rfl, rfl, rfl, rfl, ?_, rfl, rfl, c, hmem, rfl, hpart⟩
    simp

/-- Claim C2 (amended). For every successful `add_message_to_chat`, the
returned state holds the new message and the bumped conversation row
together (one transaction), the conversation's `updated_at` is the
wall-clock value read before the insert, and the message's `created_at`
is the database clock value read at the insert, one step later — so the
conversation's `updated_at` is strictly below (in particular not `>=` and
not equal to) the message's creation timestamp. -/
theorem add_message_timestamps {db db' : DB} {chat_id : Nat} {u : User} {s : String}
    {msg : ChatMessage}
    (h : add_message_to_chat db chat_id u s = .ok (msg, db')) :
    msg ∈ db'.messages ∧
      (∃ c', c' ∈ db'.chats ∧ c'.id = chat_id ∧ c'.updated_at = db.clock) ∧
      msg.created_at = db.clock + 1 ∧
      (∀ c' ∈ db'.chats, c'.id = chat_id → c'.updated_at < msg.created_at) := by
  obtain ⟨-, -, -, -, -, hcre, -, -, hmsgs, hchats, -, -, c, hmem, hcid, -⟩ :=
    add_message_ok h
  refine ⟨by rw [hmsgs]; exact List.mem_append_right _ (List.mem_singleton.mpr rfl), ?_, hcre, ?_⟩
  · refine ⟨{ c with updated_at := db.clock }, ?_, hcid, rfl⟩
    rw [hchats]
    have : (fun x => if x.id == chat_id then { x with updated_at := db.clock } else x) c
        = { c with updated_at := db.clock } := by
      simp [hcid]
    exact this ▸ List.mem_map_of_mem _ hmem
  · intro c' hc' hc'id
    rw [hchats] at hc'
    obtain ⟨x, hx, hfx⟩ := List.mem_map.mp hc'
    by_cases hxid : x.id = chat_id
    · rw [if_pos (by simpa using hxid)] at hfx
      rw [← hfx, hcre]
      show db.clock < db.clock + 1
      omega
    · rw [if_neg (by simpa using hxid)] at hfx
      rw [← hfx] at hc'id
      exact absurd hc'id hxid

/-- Store state used for the concrete checks of the message-append
timestamp behaviour: users 1 and 2 with one direct chat (id 10) and no
messages, fresh-id counter 11, clock 5. -/
def dbC2 : DB :=
  { users := [⟨1⟩, ⟨2⟩], properties := [],
    chats := [⟨10, none, 1, 2, 0, 0⟩], messages := [],
    next_id := 11, clock := 5 }

/-- The message produced by appending "hi" to chat 10 of `dbC2`. -/
def msgC2 : ChatMessage := ⟨11, 10, 1, "hi", false, 6⟩

/-- The store state after appending "hi" to chat 10 of `dbC2`: the chat's
`updated_at` became 5 and the message was created at 6, both in the same
transaction. -/
def dbC2post : DB :=
  { users := [⟨1⟩, ⟨2⟩], properties := [],
    chats := [⟨10, none, 1, 2, 0, 5⟩], messages := [msgC2],
    next_id := 12, clock := 7 }

/-- Counterexample to claim C2 as stated: appending "hi" to chat 10 of
`dbC2` yields a message with `created_at = 6` while the conversation's
`updated_at` becomes `5` — the conversation timestamp is neither equal to
nor `>=` the message's creation timestamp. -/
theorem add_message_timestamps_counterexample :
    ∃ msg db', add_message_to_chat dbC2 10 ⟨1⟩ "hi" = .ok (msg, db') ∧
      ∀ c' ∈ db'.chats, c'.id = 10 →
        c'.updated_at ≠ msg.created_at ∧ ¬ msg.created_at ≤ c'.updated_at :=
  ⟨msgC2, dbC2post, rfl, by decide⟩

/-- Witness for the amended claim C2 at the concrete input `dbC2`. -/
theorem add_message_timestamps_witness :
    msgC2 ∈ dbC2post.messages ∧
      (∃ c', c' ∈ dbC2post.chats ∧ c'.id = 10 ∧ c'.updated_at = dbC2.clock) ∧
      msgC2.created_at = dbC2.clock + 1 ∧
      (∀ c' ∈ dbC2post.chats, c'.id = 10 → c'.updated_at < msgC2.created_at) :=
  @add_message_timestamps dbC2 dbC2post 10 ⟨1⟩ "hi" msgC2 rfl

theorem publishPreceded_append (committed : List Nat) (e1 e2 : List Event) :
    publishPreceded committed (e1 ++ e2) ↔
      publishPreceded committed e1 ∧ publishPreceded (commitsAfter committed e1) e2 := by
  induction e1 generalizing committed with
  | nil => simp [publishPreceded, commitsAfter]
  | cons e rest ih =>
    cases e with
    | storeCommit m => simp [publishPreceded, commitsAfter, ih]
    | publish t m =>
      simp [publishPreceded, commitsAfter, ih]
      tauto

theorem processFrame_publishPreceded (db : DB) (chat_id : Nat) (u : User) (f : Frame)
    (committed : List Nat) :
    publishPreceded committed (process_frame db chat_id u f).events := by
  unfold process_frame
  cases hv : validate_create_request f with
  | none => simp [publishPreceded]
  | some s =>
    cases ha : add_message_to_chat db chat_id u s with
    | error e => simp [ha, publishPreceded]
    | ok res => simp [ha, publishPreceded]

theorem receiver_loop_publishPreceded (chat_id : Nat) (u : User) :
    ∀ (frames : List Frame) (db : DB) (committed : List Nat),
      publishPreceded committed (websocket_receiver_loop db chat_id u frames).2
  | [], db, committed => trivial
  | f :: fs, db, committed => by
    show publishPreceded committed
      ((process_frame db chat_id u f).events ++
        (websocket_receiver_loop (process_frame db chat_id u f).db chat_id u fs).2)
    rw [publishPreceded_append]
    exact ⟨processFrame_publishPreceded db chat_id u f committed,
      receiver_loop_publishPreceded chat_id u fs _ _⟩

theorem processFrame_topic (db : DB) (chat_id : Nat) (u : User) (f : Frame)
    {t : String} {m : Nat}
    (h : Event.publish t m ∈ (process_frame db chat_id u f).events) :
    t = "chat:" ++ toString chat_id := by
  unfold process_frame at h
  cases hv : validate_create_request f with
  | none => simp [hv] at h
  | some s =>
    rw [hv] at h
    cases ha : add_message_to_chat db chat_id u s with
    | error e => simp [ha] at h
    | ok res =>
      obtain ⟨msg, db'⟩ := res
      simp [ha] at h
      exact h.1

theorem receiver_loop_topic (chat_id : Nat) (u : User) :
    ∀ (frames : List Frame) (db : DB) (t : String) (m : Nat),
      Event.publish t m ∈ (websocket_receiver_loop db chat_id u frames).2 →
      t = "chat:" ++ toString chat_id
  | [], db, t, m => by intro h; simp [websocket_receiver_loop] at h
  | f :: fs, db, t, m => by
    intro h
    have : Event.publish t m ∈
        (process_frame db chat_id u f).events ++
          (websocket_receiver_loop (process_frame db chat_id u f).db chat_id u fs).2 := h
    rcases List.mem_append.mp this with h1 | h2
    · exact processFrame_topic db chat_id u f h1
    · exact receiver_loop_topic chat_id u fs _ t m h2

/-- Claim C1. Over any run of the inbound duty's receive loop, every
publish action is of a message whose store transaction committed earlier
in the trace (no publish precedes the successful store write of its
message), and every publish goes to the conversation's topic
`"chat:" + conversationId`. -/
theorem receiver_persist_before_publish (db : DB) (chat_id : Nat) (u : User)
    (frames : List Frame) :
    publishPreceded [] (websocket_receiver_loop db chat_id u frames).2 ∧
      ∀ t m, Event.publish t m ∈ (websocket_receiver_loop db chat_id u frames).2 →
        t = "chat:" ++ toString chat_id :=
  ⟨receiver_loop_publishPreceded chat_id u frames db [],
    fun t m h => receiver_loop_topic chat_id u frames db t m h⟩

/-- Witness for claim C1 at a concrete input: one valid frame on chat 10
of `dbC2` produces a publish to topic `"chat:10"`, and the trace satisfies
the persist-before-publish property. -/
theorem receiver_persist_before_publish_witness :
    (Event.publish ("chat:" ++ toString 10) 11 ∈
        (websocket_receiver_loop dbC2 10 ⟨1⟩ [Frame.contentFrame "hi"]).2) ∧
      publishPreceded [] (websocket_receiver_loop dbC2 10 ⟨1⟩ [Frame.contentFrame "hi"]).2 ∧
      "chat:" ++ toString 10 = "chat:" ++ toString 10 :=
  ⟨by decide,
    (receiver_persist_before_publish dbC2 10 ⟨1⟩ [Frame.contentFrame "hi"]).1,
    (receiver_persist_before_publish dbC2 10 ⟨1⟩ [Frame.contentFrame "hi"]).2
      ("chat:" ++ toString 10) 11 (by decide)⟩

/-- Claim C3. A frame that fails parsing or content validation is dropped:
the store state is untouched (no message row, conversation `updated_at`
unchanged), nothing is published, and the session is not closed; a
subsequent valid frame from the same sender on the same state still
persists and publishes its message. -/
theorem invalid_frame_dropped {db : DB} {chat_id : Nat} {u : User} {c : Chat}
    (f : Frame) (s : String)
    (hbad : validate_create_request f = none)
    (hf : db.chats.filter (fun c => c.id == chat_id) = [c])
    (hp : u.id = c.initiator_id ∨ u.id = c.property_user_id)
    (hlen1 : 1 ≤ s.length) (hlen2 : s.length ≤ 2000) :
    process_frame db chat_id u f = { db := db, events := [], closesSession := false } ∧
      ∃ msg db', add_message_to_chat db chat_id u s = .ok (msg, db') ∧
        msg ∈ db'.messages ∧ msg.content = s ∧ msg.sender_id = u.id ∧
        websocket_receiver_loop db chat_id u [f, .contentFrame s] =
          (db', [.storeCommit msg.id, .publish ("chat:" ++ toString chat_id) msg.id]) := by
  have hstep1 : process_frame db chat_id u f =
      { db := db, events := [], closesSession := false } := by
    simp [process_frame, hbad]
  have hok : validate_create_request (.contentFrame s) = some s := by
    simp [validate_create_request, hlen1, hlen2]
  have hadd := add_message_success s hf hp
  have hstep2 : process_frame db chat_id u (.contentFrame s) =
      { db := dbAfterAdd db c u s,
        events := [.storeCommit (msgAfterAdd db c u s).id,
          .publish ("chat:" ++ toString chat_id) (msgAfterAdd db c u s).id],
        closesSession := false } := by
    simp [process_frame, hok, hadd]
  refine ⟨hstep1, msgAfterAdd db c u s, dbAfterAdd db c u s, hadd, ?_, rfl, rfl, ?_⟩
  · simp [dbAfterAdd]
  · simp only [websocket_receiver_loop, hstep1, hstep2]
    simp

/-- Witness for claim C3 at a concrete input: on chat 10 of `dbC2` an
empty-content frame is dropped with no state change, and a following
"hi" frame is persisted and published. -/
theorem invalid_frame_dropped_witness :
    process_frame dbC2 10 ⟨1⟩ (Frame.contentFrame "") =
        { db := dbC2, events := [], closesSession := false } ∧
      ∃ msg db', add_message_to_chat dbC2 10 ⟨1⟩ "hi" = .ok (msg, db') ∧
        msg ∈ db'.messages ∧ msg.content = "hi" ∧ msg.sender_id = (⟨1⟩ : User).id ∧
        websocket_receiver_loop dbC2 10 ⟨1⟩ [Frame.contentFrame "", .contentFrame "hi"] =
          (db', [.storeCommit msg.id, .publish ("chat:" ++ toString 10) msg.id]) :=
  invalid_frame_dropped (c := ⟨10, none, 1, 2, 0, 0⟩) (Frame.contentFrame "") "hi"
    (by decide) (by decide) (Or.inl rfl) (by decide) (by decide)

/-- An error raised inside `get_chat_by_id` propagates unchanged out of
`get_chat_messages` (the participation check runs first). -/
theorem get_chat_messages_propagates {db : DB} {chat_id : Nat} {u : User} {e : ChatError}
    (h : get_chat_by_id db chat_id u = .error e) (page per_page : Nat) :
    get_chat_messages db chat_id u page per_page = .error e := by
  simp [get_chat_messages, h, Bind.bind, Except.bind]

/-- Claim C6. A nonexistent conversation yields the not-found error from
`get_chat_by_id`, `get_chat_messages`, and the websocket connection
attempt; an existing conversation with a non-participant caller yields the
authorization error from all three; in both cases the websocket handshake
is never accepted, and the two errors are distinguishable. -/
theorem access_control_boundary (db : DB) (chat_id : Nat) (u : User) (page per_page : Nat) :
    (db.chats.filter (fun c => c.id == chat_id) = [] →
      get_chat_by_id db chat_id u = .error .chatNotFound ∧
      get_chat_messages db chat_id u page per_page = .error .chatNotFound ∧
      chat_ws_connect db chat_id (some u) = .rejectedError .chatNotFound ∧
      handshakeAccepted (chat_ws_connect db chat_id (some u)) = false) ∧
    (∀ c, db.chats.filter (fun c => c.id == chat_id) = [c] →
      u.id ≠ c.initiator_id → u.id ≠ c.property_user_id →
      get_chat_by_id db chat_id u = .error .unauthorized ∧
      get_chat_messages db chat_id u page per_page = .error .unauthorized ∧
      chat_ws_connect db chat_id (some u) = .rejectedError .unauthorized ∧
      handshakeAccepted (chat_ws_connect db chat_id (some u)) = false) ∧
    ChatError.chatNotFound ≠ ChatError.unauthorized := by
  refine ⟨?_, ?_, by decide⟩
  · intro hf
    have hg := get_chat_by_id_error_not_found (u := u) hf
    exact ⟨hg, get_chat_messages_propagates hg page per_page,
      by simp [chat_ws_connect, hg], by simp [handshakeAccepted, chat_ws_connect, hg]⟩
  · intro c hf h1 h2
    have hg := get_chat_by_id_error_unauthorized hf h1 h2
    exact ⟨hg, get_chat_messages_propagates hg page per_page,
      by simp [chat_ws_connect, hg], by simp [handshakeAccepted, chat_ws_connect, hg]⟩

/-- Witness for claim C6: in `dbC2`, chat 99 does not exist (user 1 gets
the not-found error everywhere) and user 3 is not a participant of chat 10
(authorization error everywhere, handshake never accepted). -/
theorem access_control_boundary_witness :
    (get_chat_by_id dbC2 99 ⟨1⟩ = .error .chatNotFound ∧
      get_chat_messages dbC2 99 ⟨1⟩ 1 50 = .error .chatNotFound ∧
      chat_ws_connect dbC2 99 (some ⟨1⟩) = .rejectedError .chatNotFound ∧
      handshakeAccepted (chat_ws_connect dbC2 99 (some ⟨1⟩)) = false) ∧
    (get_chat_by_id dbC2 10 ⟨3⟩ = .error .unauthorized ∧
      get_chat_messages dbC2 10 ⟨3⟩ 1 50 = .error .unauthorized ∧
      chat_ws_connect dbC2 10 (some ⟨3⟩) = .rejectedError .unauthorized ∧
      handshakeAccepted (chat_ws_connect dbC2 10 (some ⟨3⟩)) = false) :=
  ⟨(access_control_boundary dbC2 99 ⟨1⟩ 1 50).1 (by decide),
    (access_control_boundary dbC2 10 ⟨3⟩ 1 50).2.1 ⟨10, none, 1, 2, 0, 0⟩
      (by decide) (by decide) (by decide)⟩

/-- Claim C9. `get_chat_by_id` and `get_chat_messages` are read-only: on
success they return the store state unchanged (no read flag flips, no
`updated_at` bump); and `add_message_to_chat` leaves every pre-existing
message row — in particular its read flag — untouched, appending the new
unread row, so read-state changes happen only through
`mark_messages_as_read`. -/
theorem chat_reads_pure (db : DB) (chat_id : Nat) (u : User) (page per_page : Nat) :
    (∀ c db', get_chat_by_id db chat_id u = .ok (c, db') → db' = db) ∧
      (∀ items total tp db',
        get_chat_messages db chat_id u page per_page = .ok (items, total, tp, db') →
        db' = db) ∧
      (∀ s msg db', add_message_to_chat db chat_id u s = .ok (msg, db') →
        db'.messages = db.messages ++ [msg] ∧ msg.is_read = false) := by
  refine ⟨fun c db' h => (get_chat_by_id_ok h).1, ?_, ?_⟩
  · intro items total tp db' h
    unfold get_chat_messages at h
    cases hg : get_chat_by_id db chat_id u with
    | error e => simp [hg, Bind.bind, Except.bind] at h
    | ok res =>
      obtain ⟨c, db1⟩ := res
      obtain ⟨rfl, -, -, -⟩ := get_chat_by_id_ok hg
      simp [hg, Bind.bind, Except.bind] at h
      exact h.2.2.2.symm
  · intro s msg db' h
    obtain ⟨-, -, -, -, hread, -, -, -, hmsgs, -⟩ := add_message_ok h
    exact ⟨hmsgs, hread⟩

/-- Witness for claim C9 at `dbC2`: reading chat 10 as user 1 succeeds and
leaves the state equal to `dbC2`. -/
theorem chat_reads_pure_witness :
    get_chat_by_id dbC2 10 ⟨1⟩ = .ok (⟨10, none, 1, 2, 0, 0⟩, dbC2) ∧
      get_chat_messages dbC2 10 ⟨1⟩ 1 50 = .ok ([], 0, 0, dbC2) ∧
      dbC2 = dbC2 :=
  ⟨rfl,
    by simp [get_chat_messages, get_chat_by_id, scalar_one_or_none, Bind.bind, Except.bind,
      sortedMessages, total_pages_of, dbC2],
    (chat_reads_pure dbC2 10 ⟨1⟩ 1 50).1 ⟨10, none, 1, 2, 0, 0⟩ dbC2 rfl⟩

theorem createdLe_trans (a b c : ChatMessage) :
    createdLe a b = true → createdLe b c = true → createdLe a c = true := by
  simp [createdLe]
  omega

theorem createdLe_total (a b : ChatMessage) :
    (createdLe a b || createdLe b a) = true := by
  simp [createdLe]
  omega

/-- Forward computation of a successful `get_chat_messages`: with the chat
present and the caller a participant, page `page` is the corresponding
drop/take window of the chronologically sorted message list. -/
theorem get_chat_messages_success {db : DB} {chat_id : Nat} {u : User} {c : Chat}
    (page per_page : Nat)
    (hf : db.chats.filter (fun c => c.id == chat_id) = [c])
    (hp : u.id = c.initiator_id ∨ u.id = c.property_user_id) :
    get_chat_messages db chat_id u page per_page =
      .ok (((sortedMessages db chat_id).drop ((page - 1) * per_page)).take per_page,
        (db.messages.filter (fun m => m.chat_id == chat_id)).length,
        total_pages_of (db.messages.filter (fun m => m.chat_id == chat_id)).length per_page,
        db) := by
  simp [get_chat_messages, get_chat_by_id_of_filter hf hp, Bind.bind, Except.bind]

/-- Claim C8. For a participant caller, the message history is sorted in
non-decreasing creation-timestamp order and is a permutation of exactly
the conversation's stored messages; each page is the drop/take window of
that sorted sequence at offset `(page - 1) * per_page`; and page 1
followed by page 2 (same `N`) is precisely the first `N + N` elements of
the sorted sequence — a contiguous, non-overlapping continuation. -/
theorem list_messages_ordered_paginated {db : DB} {chat_id : Nat} {u : User} {c : Chat}
    (hf : db.chats.filter (fun c => c.id == chat_id) = [c])
    (hp : u.id = c.initiator_id ∨ u.id = c.property_user_id) :
    List.Pairwise (fun a b => a.created_at ≤ b.created_at) (sortedMessages db chat_id) ∧
      (sortedMessages db chat_id).Perm
        (db.messages.filter (fun m => m.chat_id == chat_id)) ∧
      (∀ page per_page, get_chat_messages db chat_id u page per_page =
        .ok (((sortedMessages db chat_id).drop ((page - 1) * per_page)).take per_page,
          (db.messages.filter (fun m => m.chat_id == chat_id)).length,
          total_pages_of (db.messages.filter (fun m => m.chat_id == chat_id)).length per_page,
          db)) ∧
      (∀ N, (((sortedMessages db chat_id).drop ((1 - 1) * N)).take N) ++
          (((sortedMessages db chat_id).drop ((2 - 1) * N)).take N) =
        (sortedMessages db chat_id).take (N + N)) := by
  refine ⟨?_, List.mergeSort_perm _ _, fun page per_page =>
    get_chat_messages_success page per_page hf hp, fun N => ?_⟩
  · have hs := List.sorted_mergeSort createdLe_trans createdLe_total
      (db.messages.filter (fun m => m.chat_id == chat_id))
    exact hs.imp (fun h => by simpa [createdLe] using h)
  · simp [List.take_add]

/-- Store state for the pagination checks: chat 10 between users 1 and 2
with three of its messages (timestamps 3, 1, 2) and one message of another
chat interleaved. -/
def dbC8 : DB :=
  { users := [⟨1⟩, ⟨2⟩], properties := [],
    chats := [⟨10, none, 1, 2, 0, 0⟩],
    messages := [⟨21, 10, 1, "a", false, 3⟩, ⟨22, 10, 2, "b", false, 1⟩,
      ⟨23, 99, 1, "c", false, 2⟩, ⟨24, 10, 1, "d", true, 2⟩],
    next_id := 30, clock := 9 }

/-- Witness for claim C8 at `dbC8` with `N = 2`: both pages are the stated
windows of the sorted sequence, and together they form its first four
elements. -/
theorem list_messages_ordered_paginated_witness :
    List.Pairwise (fun a b => a.created_at ≤ b.created_at) (sortedMessages dbC8 10) ∧
      get_chat_messages dbC8 10 ⟨1⟩ 1 2 =
        .ok (((sortedMessages dbC8 10).drop ((1 - 1) * 2)).take 2,
          (dbC8.messages.filter (fun m => m.chat_id == 10)).length,
          total_pages_of (dbC8.messages.filter (fun m => m.chat_id == 10)).length 2,
          dbC8) ∧
      get_chat_messages dbC8 10 ⟨1⟩ 2 2 =
        .ok (((sortedMessages dbC8 10).drop ((2 - 1) * 2)).take 2,
          (dbC8.messages.filter (fun m => m.chat_id == 10)).length,
          total_pages_of (dbC8.messages.filter (fun m => m.chat_id == 10)).length 2,
          dbC8) ∧
      (((sortedMessages dbC8 10).drop ((1 - 1) * 2)).take 2) ++
          (((sortedMessages dbC8 10).drop ((2 - 1) * 2)).take 2) =
        (sortedMessages dbC8 10).take (2 + 2) :=
  ⟨(list_messages_ordered_paginated (c := ⟨10, none, 1, 2, 0, 0⟩) (by decide) (Or.inl rfl)).1,
    (list_messages_ordered_paginated (c := ⟨10, none, 1, 2, 0, 0⟩) (by decide) (Or.inl rfl)).2.2.1 1 2,
    (list_messages_ordered_paginated (c := ⟨10, none, 1, 2, 0, 0⟩) (by decide) (Or.inl rfl)).2.2.1 2 2,
    (list_messages_ordered_paginated (c := ⟨10, none, 1, 2, 0, 0⟩) (by decide) (Or.inl rfl)).2.2.2 2⟩

theorem markReadApply_sender {chat_id caller_id : Nat} {m : ChatMessage}
    (h : m.sender_id = caller_id) : markReadApply chat_id caller_id m = m := by
  simp [markReadApply, markReadPred, h]

theorem markReadApply_other_chat {chat_id caller_id : Nat} {m : ChatMessage}
    (h : m.chat_id ≠ chat_id) : markReadApply chat_id caller_id m = m := by
  simp [markReadApply, markReadPred, h]

theorem markReadApply_received {chat_id caller_id : Nat} {m : ChatMessage}
    (h1 : m.chat_id = chat_id) (h2 : m.sender_id ≠ caller_id) :
    markReadApply chat_id caller_id m = { m with is_read := true } := by
  cases hr : m.is_read with
  | false => simp [markReadApply, markReadPred, h1, h2, hr]
  | true =>
    have : ({ m with is_read := true } : ChatMessage) = m := by
      cases m
      simp_all
    rw [this]
    simp [markReadApply, markReadPred, hr]

theorem markReadPred_apply_false (chat_id caller_id : Nat) (m : ChatMessage) :
    markReadPred chat_id caller_id (markReadApply chat_id caller_id m) = false := by
  obtain ⟨mid, mc, ms, mcont, mr, mca⟩ := m
  simp only [markReadApply, markReadPred]
  by_cases hc : mc = chat_id <;> by_cases hs : ms = caller_id <;> cases mr <;>
    simp [hc, hs]

theorem markReadApply_idem (chat_id caller_id : Nat) (m : ChatMessage) :
    markReadApply chat_id caller_id (markReadApply chat_id caller_id m) =
      markReadApply chat_id caller_id m := by
  rw [markReadApply, markReadPred_apply_false]
  simp

theorem filter_markReadPred_after (chat_id caller_id : Nat) (l : List ChatMessage) :
    (l.map (markReadApply chat_id caller_id)).filter (markReadPred chat_id caller_id) = [] := by
  rw [List.filter_eq_nil_iff]
  intro a ha
  obtain ⟨m, -, rfl⟩ := List.mem_map.mp ha
  simp [markReadPred_apply_false]

theorem filter_id_map_comm {g : Chat → Chat} (hid : ∀ c, (g c).id = c.id)
    (chat_id : Nat) (l : List Chat) :
    (l.map g).filter (fun x => x.id == chat_id) =
      (l.filter (fun x => x.id == chat_id)).map g := by
  induction l with
  | nil => rfl
  | cons a t ih =>
    by_cases h : a.id = chat_id
    · simp [List.filter_cons, hid, h, ih]
    · simp [List.filter_cons, hid, h, ih]

/-- A `mark_messages_as_read` call whose WHERE clause selects no row
returns 0 and leaves the state unchanged. -/
theorem mark_read_zero {db : DB} {chat_id : Nat} {u : User} {c : Chat}
    (g : get_chat_by_id db chat_id u = .ok (c, db))
    (hfe : db.messages.filter (markReadPred chat_id u.id) = [])
    (hmap : db.messages.map (markReadApply chat_id u.id) = db.messages) :
    mark_messages_as_read db chat_id u = .ok (0, db) := by
  simp [mark_messages_as_read, g, Bind.bind, Except.bind, hfe, hmap]

/-- Claim C7. With the chat present and the caller a participant,
`mark_messages_as_read` returns the number of rows its WHERE clause
selects and applies exactly the selecting update: messages sent by the
caller and messages of other chats are untouched, received messages of
this chat end up read; the conversation's `updated_at` is bumped exactly
when the count is positive (when it is zero the state is unchanged); and
an immediately repeated call returns 0 and changes nothing. -/
theorem mark_read_spec {db : DB} {chat_id : Nat} {u : User} {c : Chat}
    (hf : db.chats.filter (fun c => c.id == chat_id) = [c])
    (hp : u.id = c.initiator_id ∨ u.id = c.property_user_id) :
    ∃ db', mark_messages_as_read db chat_id u =
        .ok ((db.messages.filter (markReadPred chat_id u.id)).length, db') ∧
      db'.messages = db.messages.map (markReadApply chat_id u.id) ∧
      (∀ m, m.sender_id = u.id → markReadApply chat_id u.id m = m) ∧
      (∀ m, m.chat_id ≠ chat_id → markReadApply chat_id u.id m = m) ∧
      (∀ m, m.chat_id = chat_id → m.sender_id ≠ u.id →
        markReadApply chat_id u.id m = { m with is_read := true }) ∧
      (0 < (db.messages.filter (markReadPred chat_id u.id)).length →
        ∀ c' ∈ db'.chats, c'.id = chat_id → c'.updated_at = db.clock) ∧
      ((db.messages.filter (markReadPred chat_id u.id)).length = 0 → db' = db) ∧
      mark_messages_as_read db' chat_id u = .ok (0, db') := by
  have g := get_chat_by_id_of_filter hf hp
  by_cases hn : (db.messages.filter (markReadPred chat_id u.id)).length = 0
  · have hfe : db.messages.filter (markReadPred chat_id u.id) = [] :=
      List.length_eq_zero.mp hn
    have hptw : ∀ m ∈ db.messages, markReadApply chat_id u.id m = m := by
      intro m hm
      have hpf : markReadPred chat_id u.id m = false := by
        have := List.filter_eq_nil_iff.mp hfe m hm
        simpa using this
      simp [markReadApply, hpf]
    have hmap : db.messages.map (markReadApply chat_id u.id) = db.messages :=
      (List.map_congr_left hptw).trans (List.map_id _)
    have hcall : mark_messages_as_read db chat_id u = .ok (0, db) := by
      simp [mark_messages_as_read, g, Bind.bind, Except.bind, hn, hfe, hmap]
    refine ⟨db, by rw [hn]; exact hcall, hmap.symm,
      fun m hm => markReadApply_sender hm, fun m hm => markReadApply_other_chat hm,
      fun m h1 h2 => markReadApply_received h1 h2,
      fun h => absurd (hn ▸ h) (lt_irrefl 0), fun _ => rfl, hcall⟩
  · have hpos : 0 < (db.messages.filter (markReadPred chat_id u.id)).length :=
      Nat.pos_of_ne_zero hn
    have hcall : mark_messages_as_read db chat_id u =
        .ok ((db.messages.filter (markReadPred chat_id u.id)).length,
          { users := db.users, properties := db.properties,
            chats := db.chats.map (fun x =>
              if x.id == chat_id then { x with updated_at := db.clock } else x),
            messages := db.messages.map (markReadApply chat_id u.id),
            next_id := db.next_id, clock := db.clock + 1 }) := by
      simp [mark_messages_as_read, g, Bind.bind, Except.bind, now, hpos]
    refine ⟨_, hcall, rfl,
      fun m hm => markReadApply_sender hm, fun m hm => markReadApply_other_chat hm,
      fun m h1 h2 => markReadApply_received h1 h2, ?_, fun h => absurd h hn, ?_⟩
    · intro _ c' hc' hcid
      obtain ⟨x, hx, hfx⟩ := List.mem_map.mp hc'
      by_cases hxid : x.id = chat_id
      · rw [if_pos (by simpa using hxid)] at hfx
        rw [← hfx]
      · rw [if_neg (by simpa using hxid)] at hfx
        rw [← hfx] at hcid
        exact absurd hcid hxid
    · have hid : ∀ x : Chat,
          ((fun x => if x.id == chat_id then { x with updated_at := db.clock } else x) x).id
            = x.id := by
        intro x
        by_cases h : x.id = chat_id <;> simp [h]
      have hf2 : (db.chats.map (fun x =>
          if x.id == chat_id then { x with updated_at := db.clock } else x)).filter
            (fun x => x.id == chat_id) =
          [{ c with updated_at := db.clock }] := by
        rw [filter_id_map_comm hid, hf]
        have : c.id = chat_id := by
          have hmem : c ∈ db.chats.filter (fun x => x.id == chat_id) := by
            rw [hf]; exact List.mem_singleton.mpr rfl
          have := (List.mem_filter.mp hmem).2
          simpa using this
        simp [this]
      have hp2 : u.id = ({ c with updated_at := db.clock } : Chat).initiator_id ∨
          u.id = ({ c with updated_at := db.clock } : Chat).property_user_id := by
        rcases hp with h | h
        · exact Or.inl h
        · exact Or.inr h
      have g2 := @get_chat_by_id_of_filter
        { users := db.users, properties := db.properties,
          chats := db.chats.map (fun x =>
            if x.id == chat_id then { x with updated_at := db.clock } else x),
          messages := db.messages.map (markReadApply chat_id u.id),
          next_id := db.next_id, clock := db.clock + 1 }
        chat_id u { c with updated_at := db.clock } hf2 hp2
      have hfe2 : (db.messages.map (markReadApply chat_id u.id)).filter
          (markReadPred chat_id u.id) = [] := filter_markReadPred_after chat_id u.id db.messages
      have hmap2 : (db.messages.map (markReadApply chat_id u.id)).map
          (markReadApply chat_id u.id) = db.messages.map (markReadApply chat_id u.id) := by
        rw [List.map_map]
        exact List.map_congr_left (fun m _ => markReadApply_idem chat_id u.id m)
      exact mark_read_zero g2 hfe2 hmap2

/-- Witness for claim C7 at `dbC8` with caller user 1: exactly one row
(message 22, sent by user 2, unread) is selected. -/
theorem mark_read_spec_witness :
    ∃ db', mark_messages_as_read dbC8 10 ⟨1⟩ =
        .ok ((dbC8.messages.filter (markReadPred 10 (⟨1⟩ : User).id)).length, db') ∧
      db'.messages = dbC8.messages.map (markReadApply 10 (⟨1⟩ : User).id) ∧
      (∀ m, m.sender_id = (⟨1⟩ : User).id → markReadApply 10 (⟨1⟩ : User).id m = m) ∧
      (∀ m, m.chat_id ≠ 10 → markReadApply 10 (⟨1⟩ : User).id m = m) ∧
      (∀ m, m.chat_id = 10 → m.sender_id ≠ (⟨1⟩ : User).id →
        markReadApply 10 (⟨1⟩ : User).id m = { m with is_read := true }) ∧
      (0 < (dbC8.messages.filter (markReadPred 10 (⟨1⟩ : User).id)).length →
        ∀ c' ∈ db'.chats, c'.id = 10 → c'.updated_at = dbC8.clock) ∧
      ((dbC8.messages.filter (markReadPred 10 (⟨1⟩ : User).id)).length = 0 → db' = dbC8) ∧
      mark_messages_as_read db' 10 ⟨1⟩ = .ok (0, db') :=
  mark_read_spec (c := ⟨10, none, 1, 2, 0, 0⟩) (by decide) (Or.inl rfl)

/-- The chat row `find_or_create_chat` inserts when no existing chat
matches: fresh id, the listing reference, the two participants, both
timestamps from the single clock read of the INSERT. -/
def newListingChat (db : DB) (pid : Nat) (u : User) (lister_id : Nat) : Chat :=
  { id := db.next_id, property_id := some pid, initiator_id := u.id,
    property_user_id := lister_id, created_at := db.clock, updated_at := db.clock }

/-- The chat row `find_or_create_direct_chat` inserts when no existing
direct chat matches: as above but with no listing reference. -/
def newDirectChat (db : DB) (u : User) (recipient_id : Nat) : Chat :=
  { id := db.next_id, property_id := none, initiator_id := u.id,
    property_user_id := recipient_id, created_at := db.clock, updated_at := db.clock }

/-- The store state after inserting a fresh chat row. -/
def dbAfterNewChat (db : DB) (nc : Chat) : DB :=
  { db with chats := db.chats ++ [nc], next_id := db.next_id + 1, clock := db.clock + 1 }

/-- When a unique existing chat matches (listing, unordered pair),
`find_or_create_chat` returns it and the state is unchanged. -/
theorem find_or_create_chat_found {db : DB} {pid : Nat} {u : User} {p : Property}
    {lister_id : Nat} {c : Chat}
    (hprop : db.properties.filter (fun q => q.id == pid) = [p])
    (hlist : p.lister_id = some lister_id)
    (hne : u.id ≠ lister_id)
    (hchat : db.chats.filter (listingChatMatch pid u.id lister_id) = [c]) :
    find_or_create_chat db pid u = .ok (c, db) := by
  simp [find_or_create_chat, hprop, hlist, hne, hchat, scalar_one_or_none,
    Bind.bind, Except.bind, Pure.pure, Except.pure]

/-- When no existing chat matches, `find_or_create_chat` inserts and
returns a fresh row. -/
theorem find_or_create_chat_created {db : DB} {pid : Nat} {u : User} {p : Property}
    {lister_id : Nat}
    (hprop : db.properties.filter (fun q => q.id == pid) = [p])
    (hlist : p.lister_id = some lister_id)
    (hne : u.id ≠ lister_id)
    (hchat : db.chats.filter (listingChatMatch pid u.id lister_id) = []) :
    find_or_create_chat db pid u =
      .ok (newListingChat db pid u lister_id,
        dbAfterNewChat db (newListingChat db pid u lister_id)) := by
  simp [find_or_create_chat, hprop, hlist, hne, hchat, scalar_one_or_none,
    Bind.bind, Except.bind, now, newListingChat, dbAfterNewChat, Pure.pure, Except.pure]

/-- Claim C4. With a valid listing whose lister is not the initiator, and
at most one matching row stored (the storage uniqueness invariant),
calling `find_or_create_chat` twice in sequence succeeds both times and
returns the same conversation, the second call finding what the first
returned or created (no second row is inserted). -/
theorem find_or_create_chat_idempotent {db : DB} {pid : Nat} {u : User} {p : Property}
    {lister_id : Nat}
    (hprop : db.properties.filter (fun q => q.id == pid) = [p])
    (hlist : p.lister_id = some lister_id)
    (hne : u.id ≠ lister_id)
    (hlen : (db.chats.filter (listingChatMatch pid u.id lister_id)).length ≤ 1) :
    ∃ c1 db1 c2 db2, find_or_create_chat db pid u = .ok (c1, db1) ∧
      find_or_create_chat db1 pid u = .ok (c2, db2) ∧ c2 = c1 ∧ db2 = db1 := by
  cases hchat : db.chats.filter (listingChatMatch pid u.id lister_id) with
  | cons a t =>
    cases t with
    | cons b t' => rw [hchat] at hlen; simp at hlen
    | nil =>
      refine ⟨a, db, a, db, find_or_create_chat_found hprop hlist hne hchat, ?_, rfl, rfl⟩
      exact find_or_create_chat_found hprop hlist hne hchat
  | nil =>
    have h1 := find_or_create_chat_created hprop hlist hne hchat
    have hmatch : listingChatMatch pid u.id lister_id (newListingChat db pid u lister_id)
        = true := by
      simp [listingChatMatch, newListingChat]
    have hchat1 : (dbAfterNewChat db (newListingChat db pid u lister_id)).chats.filter
        (listingChatMatch pid u.id lister_id) = [newListingChat db pid u lister_id] := by
      simp only [dbAfterNewChat, List.filter_append, hchat]
      simp [hmatch]
    have h2 := @find_or_create_chat_found
      (dbAfterNewChat db (newListingChat db pid u lister_id)) pid u p lister_id
      (newListingChat db pid u lister_id) hprop hlist hne hchat1
    exact ⟨_, _, _, _, h1, h2, rfl, rfl⟩

/-- The direct-chat WHERE clause is symmetric in the two participants. -/
theorem directChatMatch_comm (a b : Nat) (c : Chat) :
    directChatMatch a b c = directChatMatch b a c := by
  simp [directChatMatch, Bool.or_comm]

/-- When a unique existing direct chat matches the unordered pair,
`find_or_create_direct_chat` returns it and the state is unchanged. -/
theorem find_or_create_direct_found {db : DB} {u : User} {rid : Nat} {r : User} {c : Chat}
    (hr : db.users.find? (fun x => x.id == rid) = some r)
    (hne : u.id ≠ r.id)
    (hchat : db.chats.filter (directChatMatch u.id r.id) = [c]) :
    find_or_create_direct_chat db u rid = .ok (c, db) := by
  simp [find_or_create_direct_chat, hr, hne, hchat, scalar_one_or_none,
    Bind.bind, Except.bind, Pure.pure, Except.pure]

/-- When no existing direct chat matches, `find_or_create_direct_chat`
inserts and returns a fresh row with no listing reference. -/
theorem find_or_create_direct_created {db : DB} {u : User} {rid : Nat} {r : User}
    (hr : db.users.find? (fun x => x.id == rid) = some r)
    (hne : u.id ≠ r.id)
    (hchat : db.chats.filter (directChatMatch u.id r.id) = []) :
    find_or_create_direct_chat db u rid =
      .ok (newDirectChat db u r.id, dbAfterNewChat db (newDirectChat db u r.id)) := by
  simp [find_or_create_direct_chat, hr, hne, hchat, scalar_one_or_none,
    Bind.bind, Except.bind, now, newDirectChat, dbAfterNewChat, Pure.pure, Except.pure]

/-- Claim C5. For distinct existing users `a` and `b` (with at most one
stored direct chat for the pair — the storage uniqueness invariant),
`find_or_create_direct_chat(a, b)` followed by
`find_or_create_direct_chat(b, a)` returns the same conversation both
times: the pair lookup matches in either slot order. -/
theorem find_or_create_direct_chat_symmetric {db : DB} {a b : User}
    (ha : db.users.find? (fun x => x.id == a.id) = some a)
    (hb : db.users.find? (fun x => x.id == b.id) = some b)
    (hne : a.id ≠ b.id)
    (hlen : (db.chats.filter (directChatMatch a.id b.id)).length ≤ 1) :
    ∃ c1 db1 c2 db2, find_or_create_direct_chat db a b.id = .ok (c1, db1) ∧
      find_or_create_direct_chat db1 b a.id = .ok (c2, db2) ∧ c2 = c1 ∧ db2 = db1 := by
  have hne' : b.id ≠ a.id := fun h => hne h.symm
  have hfiltswap : ∀ l : List Chat,
      l.filter (directChatMatch b.id a.id) = l.filter (directChatMatch a.id b.id) :=
    fun l => List.filter_congr (fun c _ => directChatMatch_comm b.id a.id c)
  cases hchat : db.chats.filter (directChatMatch a.id b.id) with
  | cons x t =>
    cases t with
    | cons y t' => rw [hchat] at hlen; simp at hlen
    | nil =>
      have h1 := find_or_create_direct_found hb hne hchat
      have hchat' : db.chats.filter (directChatMatch b.id a.id) = [x] :=
        (hfiltswap db.chats).trans hchat
      exact ⟨x, db, x, db, h1, find_or_create_direct_found ha hne' hchat', rfl, rfl⟩
  | nil =>
    have h1 := find_or_create_direct_created hb hne hchat
    have hchat1 : (dbAfterNewChat db (newDirectChat db a b.id)).chats.filter
        (directChatMatch b.id a.id) = [newDirectChat db a b.id] := by
      simp only [dbAfterNewChat, List.filter_append, hfiltswap, hchat]
      simp [directChatMatch, newDirectChat]
    have h2 := @find_or_create_direct_found
      (dbAfterNewChat db (newDirectChat db a b.id)) b a.id a
      (newDirectChat db a b.id) ha hne' hchat1
    exact ⟨_, _, _, _, h1, h2, rfl, rfl⟩

/-- Claim C10. `find_or_create_direct_chat` only matches or creates
conversations with no listing reference: whatever it returns has
`property_id = NULL`, so any stored listing-bound conversation `lc` —
even one between the same two users — is never the returned one, and both
rows coexist in the resulting state. (Assumes the stored chat ids are
distinct and below the fresh-id counter.) -/
theorem direct_chat_distinct_from_listing_chat {db : DB} {a b : User} {lc : Chat} {p : Nat}
    (hb : db.users.find? (fun x => x.id == b.id) = some b)
    (hne : a.id ≠ b.id)
    (hlen : (db.chats.filter (directChatMatch a.id b.id)).length ≤ 1)
    (hlc : lc ∈ db.chats) (hlcp : lc.property_id = some p)
    (hnodup : (db.chats.map Chat.id).Nodup)
    (hfresh : ∀ ch ∈ db.chats, ch.id < db.next_id) :
    ∃ c db', find_or_create_direct_chat db a b.id = .ok (c, db') ∧
      c.property_id = none ∧ c.id ≠ lc.id ∧ lc ∈ db'.chats ∧ c ∈ db'.chats := by
  cases hchat : db.chats.filter (directChatMatch a.id b.id) with
  | cons x t =>
    cases t with
    | cons y t' => rw [hchat] at hlen; simp at hlen
    | nil =>
      have h1 := find_or_create_direct_found hb hne hchat
      have hx : x ∈ db.chats ∧ directChatMatch a.id b.id x = true := by
        have hmem : x ∈ db.chats.filter (directChatMatch a.id b.id) := by
          rw [hchat]; exact List.mem_singleton.mpr rfl
        exact List.mem_filter.mp hmem
      have hxprop : x.property_id = none := by
        have h2 := hx.2
        simp [directChatMatch] at h2
        exact h2.1
      have hxne : x.id ≠ lc.id := by
        intro h
        have hxeq : x = lc := List.inj_on_of_nodup_map hnodup hx.1 hlc h
        rw [hxeq, hlcp] at hxprop
        exact Option.noConfusion hxprop
      exact ⟨x, db, h1, hxprop, hxne, hlc, hx.1⟩
  | nil =>
    have h1 := find_or_create_direct_created hb hne hchat
    refine ⟨newDirectChat db a b.id, _, h1, rfl, ?_, ?_, ?_⟩
    · have hlt := hfresh lc hlc
      intro h
      simp [newDirectChat] at h
      omega
    · exact List.mem_append_left _ hlc
    · exact List.mem_append_right _ (List.mem_singleton.mpr rfl)

/-- Store state for the find-or-create checks: users 1 and 2, listing 100
listed by user 2, and no chats yet. -/
def dbC4 : DB :=
  { users := [⟨1⟩, ⟨2⟩], properties := [⟨100, some 2⟩],
    chats := [], messages := [], next_id := 40, clock := 8 }

/-- Witness for claim C4 at `dbC4`: user 1 contacting listing 100 twice
gets the same conversation both times. -/
theorem find_or_create_chat_idempotent_witness :
    ∃ c1 db1 c2 db2, find_or_create_chat dbC4 100 ⟨1⟩ = .ok (c1, db1) ∧
      find_or_create_chat db1 100 ⟨1⟩ = .ok (c2, db2) ∧ c2 = c1 ∧ db2 = db1 :=
  find_or_create_chat_idempotent (p := ⟨100, some 2⟩) (by decide) rfl (by decide) (by decide)

/-- Witness for claim C5 at `dbC4`: user 1 opening a direct chat with
user 2 and then user 2 opening one with user 1 get the same conversation. -/
theorem find_or_create_direct_chat_symmetric_witness :
    ∃ c1 db1 c2 db2, find_or_create_direct_chat dbC4 ⟨1⟩ 2 = .ok (c1, db1) ∧
      find_or_create_direct_chat db1 ⟨2⟩ 1 = .ok (c2, db2) ∧ c2 = c1 ∧ db2 = db1 :=
  find_or_create_direct_chat_symmetric (a := ⟨1⟩) (b := ⟨2⟩)
    (by decide) (by decide) (by decide) (by decide)

/-- Store state for the direct-versus-listing check: like `dbC4` but a
listing-bound chat (id 20, listing 100) between users 1 and 2 already
exists. -/
def dbC10 : DB :=
  { users := [⟨1⟩, ⟨2⟩], properties := [⟨100, some 2⟩],
    chats := [⟨20, some 100, 1, 2, 0, 0⟩], messages := [], next_id := 41, clock := 9 }

/-- Witness for claim C10 at `dbC10`: the direct chat created between
users 1 and 2 is a new conversation distinct from their listing-bound
chat 20, and both rows coexist. -/
theorem direct_chat_distinct_from_listing_chat_witness :
    ∃ c db', find_or_create_direct_chat dbC10 ⟨1⟩ 2 = .ok (c, db') ∧
      c.property_id = none ∧ c.id ≠ (⟨20, some 100, 1, 2, 0, 0⟩ : Chat).id ∧
      (⟨20, some 100, 1, 2, 0, 0⟩ : Chat) ∈ db'.chats ∧ c ∈ db'.chats :=
  direct_chat_distinct_from_listing_chat (a := ⟨1⟩) (b := ⟨2⟩) (p := 100)
    (by decide) (by decide) (by decide) (by decide) rfl (by decide) (by decide)
